import Mathlib

/-
  Verification of the DOS 3.3 DSK interpreter and virtual-filesystem
  projection (package dsk and package dos33 of the webdavfs repository).

  The Go byte buffers are embedded as indexing functions together with an
  explicit length; sectors and file entries are materialized as lists of
  byte values.  Loops without a structural bound in the source (the catalog
  chain and the track/sector-list chain) are embedded with an explicit fuel
  parameter: a result of `none` means the Go loop did not finish within the
  given number of iterations, or hit a panic (all panics of the modelled
  code paths are also embedded as `none`).
-/

set_option maxRecDepth 16384

namespace Dos33

/-- Little-endian 16-bit word from two byte values, as in the source helper
word (binary.LittleEndian.Uint16) applied to byte-valued inputs. -/
def word16 (lo hi : Nat) : Nat := lo + 256 * hi

/-- Shallow embedding of dsk.Diskette: the loaded image buffer is
represented by its length `size` and its byte-indexing function `byte`
(`byte i` models bytes[i] for i < size). -/
structure Diskette where
  size : Nat
  byte : Nat → Nat

/-- vtocOffset from the source; the Go function panics on an unrecognized
image size, which the embedding models as none. -/
def vtocOffset? (size : Nat) : Option Nat :=
  if size = 116480 then some 0xdd00
  else if size = 143360 then some 0x11000
  else none

/-- Byte i of the VTOC view (dsk.vtoc = buf[vtocOffset(size):]). -/
def Diskette.vtocByte? (d : Diskette) (i : Nat) : Option Nat :=
  (vtocOffset? d.size).map (fun o => d.byte (o + i))

/-- Diskette.NumTracks (VTOC byte 0x34). -/
def Diskette.NumTracks? (d : Diskette) : Option Nat := d.vtocByte? 0x34

/-- Diskette.SectorsPerTrack (VTOC byte 0x35). -/
def Diskette.SectorsPerTrack? (d : Diskette) : Option Nat := d.vtocByte? 0x35

/-- Diskette.rawSector: none models the explicit panics (track or sector
beyond the VTOC-declared geometry, with the source's non-strict checks
track > NumTracks and sector > SectorsPerTrack) and the Go slice panic of
bytes[offset:][:256] when offset+256 exceeds the buffer; otherwise the
256-byte sector slice. -/
def Diskette.rawSector? (d : Diskette) (track sector : Nat) : Option (List Nat) := do
  let nt ← d.NumTracks?
  let spt ← d.SectorsPerTrack?
  if track > nt then none
  else if sector > spt then none
  else
    let offset := (track * spt + sector) * 256
    if offset + 256 ≤ d.size then
      some ((List.range 256).map (fun i => d.byte (offset + i)))
    else none

/-- A file-descriptive entry.  The Go code keeps the suffix slice
catalog[offset:]; its methods read only the first 0x23 bytes, which the
embedding materializes as a 35-byte list. -/
def FileEntry := List Nat

/-- FileEntry.IsEmpty: first byte 0x00 marks a never-used entry. -/
def FileEntry.IsEmpty (f : List Nat) : Bool := f.getD 0x00 0 == 0x00

/-- FileEntry.IsDeleted: first byte 0xFF marks a deleted entry. -/
def FileEntry.IsDeleted (f : List Nat) : Bool := f.getD 0x00 0 == 0xFF

/-- FileEntry.IsLocked: bit 0x80 of byte 0x02. -/
def FileEntry.IsLocked (f : List Nat) : Bool := f.getD 0x02 0 &&& 0x80 != 0

/-- FileEntry.Type: byte 0x02 masked with 0x7F. -/
def FileEntry.ftype (f : List Nat) : Nat := f.getD 0x02 0 &&& 0x7F

/-- FileEntry.firstTSList: (byte 0x20, byte 0x01) for deleted entries,
otherwise (byte 0x00, byte 0x01). -/
def FileEntry.firstTSList (f : List Nat) : Nat × Nat :=
  if FileEntry.IsDeleted f then (f.getD 0x20 0, f.getD 0x01 0)
  else (f.getD 0x00 0, f.getD 0x01 0)

/-- FileEntry.SectorsUsed: little-endian word at bytes 0x21-0x22. -/
def FileEntry.SectorsUsed (f : List Nat) : Nat :=
  word16 (f.getD 0x21 0) (f.getD 0x22 0)

/-- The trimming loop of FileEntry.Name: starting from the initial size,
decrement while byte 0x03+size-1 equals 0xA0 (Hi-ASCII space).  When the
loop reaches size 0 with f[0x02] still 0xA0, the Go loop continues below
the filename field and every continuation panics (a negative index or a
negative slice bound), modelled as none. -/
def nameTrim (f : List Nat) : Nat → Option Nat
  | 0 => if f.getD 0x02 0 == 0xA0 then none else some 0
  | s + 1 => if f.getD (s + 3) 0 == 0xA0 then nameTrim f s else some (s + 1)

/-- FileEntry.Name: the filename field (30 bytes at 0x03, one fewer for
deleted entries) with trailing 0xA0 padding trimmed by the source loop. -/
def FileEntry.Name? (f : List Nat) : Option (List Nat) :=
  (nameTrim f (if FileEntry.IsDeleted f then 29 else 30)).map
    (fun s => (f.drop 0x03).take s)

/-- The filename field as claim C10 describes it: the 30 bytes at offsets
0x03-0x20, only the first 29 of them for deleted entries. -/
def nameField (f : List Nat) : List Nat :=
  (f.drop 0x03).take (if FileEntry.IsDeleted f then 29 else 30)

/-- Removal of all trailing 0xA0 padding bytes, following the words of
claim C10. -/
def dropTrailingPad (l : List Nat) : List Nat :=
  (l.reverse.dropWhile (· == 0xA0)).reverse

/-- One byte of Filename.PathSafe: an inverted byte (high bit clear) maps
to ch | 0x40, a normal byte to its low 7 bits. -/
def pathSafeByte (ch : Nat) : Nat :=
  if ch &&& 0x80 == 0 then ch ||| 0x40 else ch &&& 0x7F

/-- Filename.PathSafe from the source (the WriteByte loop over the name). -/
def pathSafe (name : List Nat) : List Nat := name.map pathSafeByte

/-- The seven fixed file-descriptive-entry offsets of a catalog sector. -/
def entryOffsets : List Nat := [0x0B, 0x2E, 0x51, 0x74, 0x97, 0xBA, 0xDD]

/-- The file-descriptive entry at a given offset of a catalog sector
(FileEntry(catalog[offset:]), materialized to its 35 bytes). -/
def entryAt (sec : List Nat) (offset : Nat) : List Nat := (sec.drop offset).take 35

/-- The loop body of Diskette.Catalog: `cur` is the sector whose bytes
0x01/0x02 name the next catalog sector (initially the VTOC view); `fuel`
bounds the otherwise unbounded Go for-loop. -/
def Diskette.CatalogF (d : Diskette) : Nat → List Nat → Option (List (List Nat))
  | 0, _ => none
  | fuel + 1, cur =>
    match d.rawSector? (cur.getD 0x01 0) (cur.getD 0x02 0) with
    | none => none
    | some sec =>
      let emitted := entryOffsets.filterMap (fun off =>
        let entry := entryAt sec off
        if FileEntry.IsEmpty entry then none else some entry)
      if sec.getD 0x01 0 == 0 then some emitted
      else (d.CatalogF fuel sec).map (fun rest => emitted ++ rest)

/-- The first 256 bytes of the VTOC view: the loop variable catalog starts
as dsk.vtoc, of which only bytes 0x01/0x02 are read before reassignment. -/
def Diskette.vtocSector? (d : Diskette) : Option (List Nat) :=
  (vtocOffset? d.size).map (fun o => (List.range 256).map (fun i => d.byte (o + i)))

/-- Diskette.Catalog with the given loop fuel. -/
def Diskette.Catalog? (d : Diskette) (fuel : Nat) : Option (List (List Nat)) := do
  let v ← d.vtocSector?
  d.CatalogF fuel v

/-- Modelled from claim C3's words: the chain of catalog sectors, started
from the track/sector named in VTOC bytes 0x01/0x02, following each
sector's bytes 0x01/0x02 and stopping when the next track is zero. -/
def Diskette.catalogChainF (d : Diskette) : Nat → List Nat → Option (List (List Nat))
  | 0, _ => none
  | fuel + 1, cur =>
    match d.rawSector? (cur.getD 0x01 0) (cur.getD 0x02 0) with
    | none => none
    | some sec =>
      if sec.getD 0x01 0 == 0 then some [sec]
      else (d.catalogChainF fuel sec).map (fun rest => sec :: rest)

/-- The catalog-sector chain started from the VTOC view. -/
def Diskette.catalogChain? (d : Diskette) (fuel : Nat) : Option (List (List Nat)) := do
  let v ← d.vtocSector?
  d.catalogChainF fuel v

/-- The entries claim C3 says one catalog sector contributes: the 35-byte
entries at the seven fixed offsets whose first byte is nonzero (deleted
0xFF entries therefore included, never-used 0x00 entries skipped). -/
def catalogSpecEmit (sec : List Nat) : List (List Nat) :=
  entryOffsets.filterMap (fun off =>
    if sec.getD off 0 ≠ 0 then some (entryAt sec off) else none)

/-- tsList.DataSectorOffsets: the 122 slot offsets 0x0C, 0x0E, ..., 0xFE. -/
def tsDataOffsets : List Nat :=
  [0x0C, 0x0E, 0x10, 0x12, 0x14, 0x16, 0x18, 0x1A, 0x1C, 0x1E, 0x20, 0x22,
   0x24, 0x26, 0x28, 0x2A, 0x2C, 0x2E, 0x30, 0x32, 0x34, 0x36, 0x38, 0x3A,
   0x3C, 0x3E, 0x40, 0x42, 0x44, 0x46, 0x48, 0x4A, 0x4C, 0x4E, 0x50, 0x52,
   0x54, 0x56, 0x58, 0x5A, 0x5C, 0x5E, 0x60, 0x62, 0x64, 0x66, 0x68, 0x6A,
   0x6C, 0x6E, 0x70, 0x72, 0x74, 0x76, 0x78, 0x7A, 0x7C, 0x7E, 0x80, 0x82,
   0x84, 0x86, 0x88, 0x8A, 0x8C, 0x8E, 0x90, 0x92, 0x94, 0x96, 0x98, 0x9A,
   0x9C, 0x9E, 0xA0, 0xA2, 0xA4, 0xA6, 0xA8, 0xAA, 0xAC, 0xAE, 0xB0, 0xB2,
   0xB4, 0xB6, 0xB8, 0xBA, 0xBC, 0xBE, 0xC0, 0xC2, 0xC4, 0xC6, 0xC8, 0xCA,
   0xCC, 0xCE, 0xD0, 0xD2, 0xD4, 0xD6, 0xD8, 0xDA, 0xDC, 0xDE, 0xE0, 0xE2,
   0xE4, 0xE6, 0xE8, 0xEA, 0xEC, 0xEE, 0xF0, 0xF2, 0xF4, 0xF6, 0xF8, 0xFA,
   0xFC, 0xFE]

/-- The inner slot loop of Diskette.DataSectors: read the (track, sector)
pair of each slot; a zero track stops the loop for every file type (the
source's TODO notes that random-access files are not handled); otherwise
the named data sector is collected. -/
def Diskette.collectData (d : Diskette) (tsl : List Nat) : List Nat → Option (List (List Nat))
  | [] => some []
  | off :: rest =>
    if tsl.getD off 0 == 0 then some []
    else
      match d.rawSector? (tsl.getD off 0) (tsl.getD (off + 1) 0) with
      | none => none
      | some sec => (d.collectData tsl rest).map (fun more => sec :: more)

/-- The outer loop of Diskette.DataSectors over the chain of T/S list
sectors, with fuel bounding the unbounded Go loop. -/
def Diskette.dataSectorsF (d : Diskette) : Nat → Nat → Nat → Option (List (List Nat))
  | 0, t, _ => if t == 0 then some [] else none
  | fuel + 1, t, s =>
    if t == 0 then some []
    else
      match d.rawSector? t s with
      | none => none
      | some tsl =>
        match d.collectData tsl tsDataOffsets with
        | none => none
        | some datas =>
          (d.dataSectorsF fuel (tsl.getD 0x01 0) (tsl.getD 0x02 0)).map
            (fun more => datas ++ more)

/-- Diskette.DataSectors: the debug Fprintf evaluates
file.Name().PathSafe() before the walk, so a panicking Name() aborts the
call (hence the Name? guard); then the T/S chain is walked. -/
def Diskette.dataSectors? (d : Diskette) (f : List Nat) (fuel : Nat) :
    Option (List (List Nat)) := do
  let _ ← FileEntry.Name? f
  d.dataSectorsF fuel (FileEntry.firstTSList f).1 (FileEntry.firstTSList f).2

/-- The type dispatch at the top of Diskette.ReadAll: ftBinary (0x04) and
ftRelocatable (0x10) read a header, the six other named types do not, and
any other type value panics. -/
def readHeader? : Nat → Option Bool
  | 0x04 => some true
  | 0x10 => some true
  | 0x00 => some false
  | 0x01 => some false
  | 0x02 => some false
  | 0x08 => some false
  | 0x20 => some false
  | 0x40 => some false
  | _ => none

/-- The payload loop of ReadAll once the header is consumed: write bytes of
the current sector while the remaining length is positive; break when the
length reaches zero, otherwise continue into the next sector. -/
def payloadLoop : Nat → List (List Nat) → List Nat
  | _, [] => []
  | len, data :: rest =>
    if len ≤ data.length then data.take len
    else data ++ payloadLoop (len - data.length) rest

/-- The header branch of ReadAll: the first walked sector contributes its
4-byte header (buf.Write(data[:4]), with length = word(data[0x02:])), then
the payload loop runs over the remainder of the first sector and all
subsequent sectors. -/
def readAllHeaderBranch : List (List Nat) → List Nat
  | [] => []
  | first :: rest =>
    first.take 4 ++
      payloadLoop (word16 (first.getD 2 0) (first.getD 3 0)) (first.drop 4 :: rest)

/-- Diskette.ReadAll over the walked data sectors: the type switch runs
first (panicking on unknown types), then the walk, then either the header
branch or the plain concatenation of the sectors. -/
def Diskette.ReadAll? (d : Diskette) (f : List Nat) (fuel : Nat) : Option (List Nat) := do
  let rh ← readHeader? (FileEntry.ftype f)
  let sectors ← d.dataSectors? f fuel
  if rh then pure (readAllHeaderBranch sectors) else pure sectors.flatten

/-- Modelled from the spec: Diskette.SectorSize() is called at
dskFile.Stat (dos33.go) but its definition is not under src/ (src has only
the package-level constant SectorSize = 256; the spec fixes 256 bytes per
sector).  Go typing of f.file.SectorsUsed() * f.dsk.SectorSize() forces the
method to return uint16, since SectorsUsed() is uint16. -/
def diskSectorSize : Nat := 256

/-- The size field computed by dskFile.Stat (dos33.go):
int64(f.file.SectorsUsed() * f.dsk.SectorSize()), a uint16 multiplication,
hence reduced mod 2^16 before the int64 widening. -/
def dskFileStatSize (f : List Nat) : Nat :=
  FileEntry.SectorsUsed f * diskSectorSize % 65536

/-- Error values returned by the dos33 filesystem methods. -/
inductive FsErr
  | unsupported
  | missingFile
deriving DecidableEq

/-- dos33FS.RemoveAll (dos33.go): unconditionally errors.ErrUnsupported,
for every path and without touching any disk state. -/
def dos33RemoveAll (_name : String) : Except FsErr Unit := .error .unsupported

/-- The kinds of children built by dskDir.Children that the claims need. -/
inductive ChildNode
  | dosDir
  | lockMarker
  | dskFile (entry : List Nat)
deriving DecidableEq

/-- The children mapping of a disk directory, keyed by byte-string name. -/
def KidsMap := List (List Nat × ChildNode)

/-- Assignment into a Go map, modelled on an association list: replace the
binding when the key is already present, otherwise add it. -/
def mapSet (m : List (List Nat × ChildNode)) (k : List Nat) (v : ChildNode) :
    List (List Nat × ChildNode) :=
  if m.any (fun p => p.1 == k) then
    m.map (fun p => if p.1 == k then (k, v) else p)
  else m ++ [(k, v)]

/-- Lookup in the children mapping. -/
def mapGet (m : List (List Nat × ChildNode)) (k : List Nat) : Option ChildNode :=
  (m.find? (fun p => p.1 == k)).map (fun p => p.2)

/-- snLock: the ",locked" suffix (bytes of ",locked"). -/
def snLock (name : List Nat) : List Nat :=
  name ++ [0x2C, 0x6C, 0x6F, 0x63, 0x6B, 0x65, 0x64]

/-- snDeleted: leading "_" and trailing ".garbage". -/
def snDeleted (name : List Nat) : List Nat :=
  0x5F :: name ++ [0x2E, 0x67, 0x61, 0x72, 0x62, 0x61, 0x67, 0x65]

/-- snDos: the bytes of "_dos". -/
def snDos : List Nat := [0x5F, 0x64, 0x6F, 0x73]

/-- One iteration of the catalog loop of dskDir.Children (dos33.go): the
path-safe name (renamed for deleted entries), a lock-marker binding for a
locked entry, then the map assignment for the entry itself — which
replaces any earlier entry of the same name. -/
def childrenStep (kids : List (List Nat × ChildNode)) (file : List Nat) :
    Option (List (List Nat × ChildNode)) := do
  let raw ← FileEntry.Name? file
  let name0 := pathSafe raw
  let name := if FileEntry.IsDeleted file then snDeleted name0 else name0
  let kids1 := if FileEntry.IsLocked file then mapSet kids (snLock name) .lockMarker else kids
  pure (mapSet kids1 name (.dskFile file))

/-- dskDir.Children (dos33.go): the _dos entry, then one pass over the
catalog entries. -/
def Diskette.children? (d : Diskette) (fuel : Nat) :
    Option (List (List Nat × ChildNode)) := do
  let entries ← d.Catalog? fuel
  entries.foldlM childrenStep (mapSet [] snDos .dosDir)

/-
  Concrete images and entries used by the witnesses, counterexamples and
  code-behavior evaluations.
-/

/-- A 143360-byte image with the standard geometry (35 tracks, 16 sectors):
a T/S list at track 1 sector 0 whose first slot names data sector
(track 2, sector 0), which holds a binary header (load address 0x0800,
payload length 5) followed by the payload bytes 1..5. -/
def dReadAll : Diskette where
  size := 143360
  byte := fun i =>
    if i = 0x11034 then 35
    else if i = 0x11035 then 16
    else if i = 4096 + 0x0C then 2
    else if i = 8192 + 1 then 0x08
    else if i = 8192 + 2 then 5
    else if i = 8192 + 4 then 1
    else if i = 8192 + 5 then 2
    else if i = 8192 + 6 then 3
    else if i = 8192 + 7 then 4
    else if i = 8192 + 8 then 5
    else 0

/-- A Binary (type 0x04) entry whose T/S list lives at track 1 sector 0;
name RAWDOS in Hi-ASCII, 2 sectors used. -/
def eReadAll : List Nat :=
  [1, 0, 0x04] ++ [0xD2, 0xC1, 0xD7, 0xC4, 0xCF, 0xD3] ++
    List.replicate 24 0xA0 ++ [2, 0]

/-- The first walked data sector of dReadAll / eReadAll. -/
def wReadAllFirst : List Nat := (List.range 256).map (fun i => dReadAll.byte (8192 + i))

/-- A 143360-byte image with the standard geometry whose T/S list at
track 1 sector 0 has a (0,0) first slot (a sparse hole) followed by a
nonzero slot naming (track 2, sector 0). -/
def dSparse : Diskette where
  size := 143360
  byte := fun i =>
    if i = 0x11034 then 35
    else if i = 0x11035 then 16
    else if i = 4096 + 0x0E then 2
    else 0

/-- A Binary (0x04, random-access) entry whose T/S list lives at
track 1 sector 0. -/
def eSparse : List Nat :=
  [1, 0, 0x04] ++ [0xC2] ++ List.replicate 29 0xA0 ++ [1, 0]

/-- The T/S list sector of dSparse at track 1 sector 0. -/
def tslSparse : List Nat := (List.range 256).map (fun i => dSparse.byte (4096 + i))

/-- A 143360-byte image whose VTOC (stored at track 17, sector 0) names
itself as the first catalog sector: bytes 0x01/0x02 of the VTOC are 17/0,
so the catalog chain is a self-loop that never reaches a zero track. -/
def dCyc : Diskette where
  size := 143360
  byte := fun i =>
    if i = 0x11001 then 17
    else if i = 0x11034 then 35
    else if i = 0x11035 then 16
    else 0

/-- The VTOC sector of dCyc, which is also every sector of its catalog
chain. -/
def cycSec : List Nat := (List.range 256).map (fun i => dCyc.byte (0x11000 + i))

/-- Integer-BASIC entry named with inverted HELLO (bytes 0x08 0x05 0x0C
0x0C 0x0F), whose path-safe form is the ASCII bytes of HELLO. -/
def eHelloInv : List Nat :=
  [1, 0, 1] ++ [0x08, 0x05, 0x0C, 0x0C, 0x0F] ++ List.replicate 25 0xA0 ++ [2, 0]

/-- Integer-BASIC entry named with normal HELLO (bytes 0xC8 0xC5 0xCC 0xCC
0xCF), whose path-safe form is also the ASCII bytes of HELLO. -/
def eHelloNorm : List Nat :=
  [2, 0, 1] ++ [0xC8, 0xC5, 0xCC, 0xCC, 0xCF] ++ List.replicate 25 0xA0 ++ [3, 0]

/-- The single catalog sector of dCollide: no next sector, the two HELLO
entries in its first two slots. -/
def collideCat : List Nat :=
  List.replicate 11 0 ++ eHelloInv ++ eHelloNorm ++ List.replicate 175 0

/-- A 143360-byte image whose catalog is the single sector at track 17
sector 1, holding the inverted-HELLO and normal-HELLO entries. -/
def dCollide : Diskette where
  size := 143360
  byte := fun i =>
    if 0x11100 ≤ i ∧ i < 0x11200 then collideCat.getD (i - 0x11100) 0
    else if i = 0x11001 then 17
    else if i = 0x11002 then 1
    else if i = 0x11034 then 35
    else if i = 0x11035 then 16
    else 0

/-- The ASCII bytes of HELLO. -/
def helloBytes : List Nat := [0x48, 0x45, 0x4C, 0x4C, 0x4F]

/-- A catalog entry using 256 sectors (bytes 0x21-0x22 hold 0x0100). -/
def eBig : List Nat := 1 :: List.replicate 32 0 ++ [0, 1]

/-- A catalog entry using 2 sectors. -/
def eSmall : List Nat := [1, 0, 1] ++ List.replicate 30 0 ++ [2, 0]

/-- A 143360-byte image whose VTOC declares 36 tracks and 16 sectors per
track: one track more than the buffer holds. -/
def dOverTracks : Diskette where
  size := 143360
  byte := fun i =>
    if i = 0x11034 then 36
    else if i = 0x11035 then 16
    else 0

/-- A non-deleted entry (length 35) named HELLO in normal Hi-ASCII with
0xA0 padding. -/
def eNamed : List Nat :=
  [1, 0, 1] ++ [0xC8, 0xC5, 0xCC, 0xCC, 0xCF] ++ List.replicate 25 0xA0 ++ [0, 2]

/-
  Claim C5 — the stat size of a projected disk file.
-/

/-- Claim C5, counterexample: an entry whose sector count is 256 is
reported with stat size 0, not 256 · 256 = 65536, because the uint16
product wraps around. -/
theorem claim_C5_counterexample :
    dskFileStatSize eBig = 0 ∧ FileEntry.SectorsUsed eBig * 256 = 65536 ∧
      (0 : Nat) ≠ 65536 := by
  decide

/-- Claim C5 as amended: the stat size equals sectors_used · 256 whenever
the sector count is below 256 (so that the uint16 product does not wrap);
in general the reported size is the product reduced mod 65536. -/
theorem claim_C5_amended (f : List Nat) (h : FileEntry.SectorsUsed f < 256) :
    dskFileStatSize f = FileEntry.SectorsUsed f * 256 := by
  unfold dskFileStatSize diskSectorSize
  exact Nat.mod_eq_of_lt (by omega)

/-- Claim C5, witness: the amended theorem applied to a 2-sector entry. -/
theorem claim_C5_witness :
    FileEntry.SectorsUsed eSmall < 256 ∧
      dskFileStatSize eSmall = FileEntry.SectorsUsed eSmall * 256 :=
  ⟨by decide, claim_C5_amended eSmall (by decide)⟩

/-
  Claim C6 — range of the path-safe encoding.
-/

/-- Every byte value below 256 is mapped by pathSafeByte into the 7-bit
range. -/
theorem pathSafeByte_bound : ∀ c, c < 256 → pathSafeByte c ≤ 0x7F := by decide

/-- Claim C6, counterexample: the filename byte 0x80 (a normal-video NUL)
is encoded as 0x00, which is below the printable range 0x20-0x7E. -/
theorem claim_C6_counterexample :
    pathSafe [0x80] = [0x00] ∧ ¬ 0x20 ≤ (0x00 : Nat) := by decide

/-- Claim C6 as amended: for a filename of byte values 0x00-0xFF, every
byte of the path-safe encoding lies in the 7-bit range 0x00-0x7F (inverted
characters land in 0x40-0x7F, normal characters are their low 7 bits; the
encoding of Hi-ASCII control characters is itself a control byte, and 0x3F
inverted encodes to 0x7F, so 0x20-0x7E does not hold). -/
theorem claim_C6_amended (name : List Nat) (h : ∀ b ∈ name, b ≤ 0xFF) :
    ∀ b ∈ pathSafe name, b ≤ 0x7F := by
  intro b hb
  obtain ⟨a, ha, rfl⟩ := List.mem_map.mp hb
  exact pathSafeByte_bound a (Nat.lt_succ_of_le (h a ha))

/-- Claim C6, witness: the amended theorem applied to the two spellings of
the letter A (normal 0xC1 and inverted 0x01). -/
theorem claim_C6_witness :
    (∀ b ∈ ([0xC1, 0x01] : List Nat), b ≤ 0xFF) ∧
      ∀ b ∈ pathSafe [0xC1, 0x01], b ≤ 0x7F :=
  ⟨by decide, claim_C6_amended [0xC1, 0x01] (by decide)⟩

/-
  Claim C8 — deleting a lock marker.
-/

/-- Claim C8, code behavior: dos33FS.RemoveAll rejects every path with
ErrUnsupported, including the lock-marker path of a locked file, so no
deletion ever unlocks anything. -/
theorem claim_C8_code_eval :
    dos33RemoveAll "/DISK/APPLESOFT,locked" = Except.error FsErr.unsupported := rfl

/-
  Claim C9 — rawSector stays in bounds.
-/

/-- Claim C9, counterexample: a 143360-byte image with 16 sectors per
track whose VTOC declares 36 tracks; track 35 < 36 and sector 0 < 16, but
the slice offset 35·16·256 = 143360 is past the buffer and the slice
operation panics (modelled as none). -/
theorem claim_C9_counterexample :
    dOverTracks.size = 143360 ∧ dOverTracks.SectorsPerTrack? = some 16 ∧
      dOverTracks.NumTracks? = some 36 ∧ 35 < 36 ∧ (0 : Nat) < 16 ∧
      dOverTracks.rawSector? 35 0 = none := by
  decide

/-- Claim C9 as amended: with a recognized image size, the matching
sectors-per-track value, and a VTOC track count of at most 35, rawSector
returns a 256-byte sector without panicking for every t < num_tracks and
s < sectors_per_track. -/
theorem claim_C9_amended (d : Diskette) (t s nt spt : Nat)
    (hnt : d.NumTracks? = some nt) (hspt : d.SectorsPerTrack? = some spt)
    (hgeo : d.size = 116480 ∧ spt = 13 ∨ d.size = 143360 ∧ spt = 16)
    (hb : nt ≤ 35) (ht : t < nt) (hs : s < spt) :
    ∃ l, d.rawSector? t s = some l ∧ l.length = 256 := by
  have hin : (t * spt + s) * 256 + 256 ≤ d.size := by
    rcases hgeo with ⟨hsz, hs13⟩ | ⟨hsz, hs16⟩
    · subst hs13; rw [hsz]; omega
    · subst hs16; rw [hsz]; omega
  refine ⟨(List.range 256).map (fun i => d.byte ((t * spt + s) * 256 + i)), ?_, by simp⟩
  unfold Diskette.rawSector?
  rw [hnt, hspt]
  simp only [Option.bind_eq_bind, Option.some_bind]
  rw [if_neg (by omega), if_neg (by omega), if_pos hin]

/-- Claim C9, witness: the amended theorem at the standard image dReadAll,
track 17, sector 0. -/
theorem claim_C9_witness :
    ∃ l, dReadAll.rawSector? 17 0 = some l ∧ l.length = 256 :=
  claim_C9_amended dReadAll 17 0 35 16 (by decide) (by decide)
    (Or.inr ⟨rfl, rfl⟩) (by decide) (by decide) (by decide)

/-
  Claim C2 — the (0,0) slot in a T/S list.
-/

/-- Claim C2, code behavior: for a Binary (random-access) file whose T/S
list has a (0,0) first slot followed by a nonzero slot, the walk stops at
the (0,0) slot and yields no data sectors at all — the zero-filled sector
is not yielded and the following slot is never visited (the source TODO
acknowledges the missing random-access handling). -/
theorem claim_C2_code_eval :
    FileEntry.ftype eSparse = 0x04 ∧
      dSparse.rawSector? 1 0 = some tslSparse ∧
      tslSparse.getD 0x0C 0 = 0 ∧ tslSparse.getD 0x0E 0 = 2 ∧
      dSparse.dataSectors? eSparse 2 = some [] := by
  decide

/-
  Claim C7 — colliding path-safe names in a disk directory.
-/

/-- Claim C7, code behavior: the catalog of dCollide holds an
inverted-HELLO entry and a normal-HELLO entry with the same path-safe
name; dskDir.Children keeps only the later entry under the shared name
(the map assignment replaces the earlier binding) and creates no
suffixed name. -/
theorem claim_C7_code_eval :
    dCollide.Catalog? 2 = some [eHelloInv, eHelloNorm] ∧
      pathSafe [0x08, 0x05, 0x0C, 0x0C, 0x0F] = helloBytes ∧
      pathSafe [0xC8, 0xC5, 0xCC, 0xCC, 0xCF] = helloBytes ∧
      eHelloInv ≠ eHelloNorm ∧
      dCollide.children? 2 =
        some [(snDos, ChildNode.dosDir), (helloBytes, ChildNode.dskFile eHelloNorm)] := by
  decide

/-
  Claim C4 — termination of the catalog traversal.
-/

/-- On dCyc, every catalog sector in the chain is the VTOC sector itself,
whose next pointer is (17, 0): the loop state recurs on every iteration
and no amount of fuel completes the walk. -/
theorem dCyc_catalogF_none :
    ∀ (n : Nat) (cur : List Nat), cur.getD 0x01 0 = 17 → cur.getD 0x02 0 = 0 →
      dCyc.CatalogF n cur = none := by
  intro n
  induction n with
  | zero => intro cur _ _; rfl
  | succ n ih =>
    intro cur h1 h2
    have hraw : dCyc.rawSector? 17 0 = some cycSec := by decide
    have hnz : (cycSec.getD 0x01 0 == 0) = false := by decide
    unfold Diskette.CatalogF
    rw [h1, h2, hraw]
    simp only [hnz, Bool.false_eq_true, if_false]
    rw [ih cycSec (by decide) (by decide)]
    rfl

/-- Claim C4, code behavior: on a 143360-byte image whose VTOC names
itself (track 17, sector 0) as the first catalog sector, the catalog walk
never terminates — there is no visited-sector set in the code, and no
iteration bound completes the loop. -/
theorem claim_C4_code_eval : ∀ n, dCyc.Catalog? n = none := by
  intro n
  have hv : dCyc.vtocSector? = some cycSec := by decide
  unfold Diskette.Catalog?
  rw [hv]
  simp only [Option.bind_eq_bind, Option.some_bind]
  exact dCyc_catalogF_none n cycSec (by decide) (by decide)

/-
  Claim C10 — FileEntry.Name trims trailing 0xA0 padding.
-/

/-- Appending a padding byte does not change the trailing-pad removal. -/
theorem dropTrailingPad_concat_pad (l : List Nat) :
    dropTrailingPad (l ++ [0xA0]) = dropTrailingPad l := by
  unfold dropTrailingPad
  rw [List.reverse_append]
  simp only [List.reverse_cons, List.reverse_nil, List.nil_append, List.singleton_append]
  rw [List.dropWhile_cons_of_pos (by decide)]

/-- Appending a non-padding byte makes the trailing-pad removal the
identity. -/
theorem dropTrailingPad_concat_ne (l : List Nat) (a : Nat) (h : a ≠ 0xA0) :
    dropTrailingPad (l ++ [a]) = l ++ [a] := by
  unfold dropTrailingPad
  rw [List.reverse_append]
  simp only [List.reverse_cons, List.reverse_nil, List.nil_append, List.singleton_append]
  rw [List.dropWhile_cons_of_neg (by simpa using h)]
  simp

/-- The byte examined by the trimming loop at size s+1 is the last byte of
the first s+1 bytes of the filename field. -/
theorem nameField_last (f : List Nat) (s : Nat) (hlen : s + 4 ≤ f.length) :
    (f.drop 3).take (s + 1) = (f.drop 3).take s ++ [f.getD (s + 3) 0] := by
  rw [List.take_succ]
  congr 1
  have h1 : (f.drop 3)[s]? = f[3 + s]? := List.getElem?_drop f 3 s
  have h2 : f[3 + s]? = some (f.getD (3 + s) 0) := by
    rw [List.getD_eq_getElem?_getD]
    have : 3 + s < f.length := by omega
    simp [List.getElem?_eq_getElem this]
  rw [h1, h2]
  simp [Nat.add_comm 3 s]

/-- The trimming loop of FileEntry.Name computes exactly the trailing-pad
removal of the first s bytes of the filename field, provided some byte of
that prefix is not padding. -/
theorem nameTrim_eq (f : List Nat) :
    ∀ s : Nat, s + 3 ≤ f.length → (∃ b ∈ (f.drop 3).take s, b ≠ 0xA0) →
      ∃ s', nameTrim f s = some s' ∧
        (f.drop 3).take s' = dropTrailingPad ((f.drop 3).take s) := by
  intro s
  induction s with
  | zero => intro _ hx; simp at hx
  | succ s ih =>
    intro hlen hx
    have hsucc := nameField_last f s (by omega)
    have hunf : nameTrim f (s + 1) =
        if (f.getD (s + 3) 0 == 0xA0) = true then nameTrim f s else some (s + 1) := rfl
    by_cases hpad : f.getD (s + 3) 0 = 0xA0
    · have hstep : nameTrim f (s + 1) = nameTrim f s := by
        rw [hunf, if_pos (by simpa using hpad)]
      have hx' : ∃ b ∈ (f.drop 3).take s, b ≠ 0xA0 := by
        obtain ⟨b, hb, hbne⟩ := hx
        rw [hsucc] at hb
        rcases List.mem_append.mp hb with h | h
        · exact ⟨b, h, hbne⟩
        · have hb2 : b = f.getD (s + 3) 0 := List.mem_singleton.mp h
          rw [hb2, hpad] at hbne
          exact absurd rfl hbne
      obtain ⟨s', h1, h2⟩ := ih (by omega) hx'
      refine ⟨s', by rw [hstep]; exact h1, ?_⟩
      rw [hsucc, hpad, dropTrailingPad_concat_pad]
      exact h2
    · refine ⟨s + 1, ?_, ?_⟩
      · rw [hunf, if_neg (by simpa using hpad)]
      · rw [hsucc, dropTrailingPad_concat_ne _ _ hpad]

/-- Claim C10: for an entry whose filename field (30 bytes at 0x03-0x20,
only the first 29 for deleted entries) holds at least one byte other than
0xA0, FileEntry.Name terminates and returns exactly the field with all
trailing 0xA0 padding removed; without such a byte the loop would run past
the field and panic. -/
theorem claim_C10 (f : List Nat) (hlen : f.length = 35)
    (hx : ∃ b ∈ nameField f, b ≠ 0xA0) :
    FileEntry.Name? f = some (dropTrailingPad (nameField f)) := by
  unfold nameField at hx ⊢
  unfold FileEntry.Name?
  obtain ⟨s', h1, h2⟩ :=
    nameTrim_eq f (if FileEntry.IsDeleted f then 29 else 30) (by split <;> omega) hx
  rw [h1, Option.map_some', h2]

/-- Claim C10, witness: a non-deleted entry named HELLO with 25 bytes of
0xA0 padding. -/
theorem claim_C10_witness :
    FileEntry.Name? eNamed = some (dropTrailingPad (nameField eNamed)) :=
  claim_C10 eNamed (by decide) (by decide)

/-
  Claim C3 — the catalog walk emits exactly the nonzero-first-byte entries
  of the chained catalog sectors.
-/

/-- The first byte of the materialized entry at an offset is the sector
byte at that offset. -/
theorem entryAt_head (sec : List Nat) (off : Nat) :
    (entryAt sec off).getD 0 0 = sec.getD off 0 := by
  unfold entryAt
  rw [List.getD_eq_getElem?_getD, List.getD_eq_getElem?_getD]
  rw [List.getElem?_take]
  rw [if_pos (by omega)]
  rw [List.getElem?_drop]
  rw [Nat.add_zero]

/-- The emission of one catalog sector in the source loop (skip IsEmpty,
keep the rest) equals the claim-side emission (keep nonzero first byte). -/
theorem specEmit_eq (sec : List Nat) :
    entryOffsets.filterMap (fun off =>
      let entry := entryAt sec off
      if FileEntry.IsEmpty entry then none else some entry) = catalogSpecEmit sec := by
  unfold catalogSpecEmit
  apply List.filterMap_congr
  intro off _
  show (if FileEntry.IsEmpty (entryAt sec off) then none else some (entryAt sec off)) =
    (if sec.getD off 0 ≠ 0 then some (entryAt sec off) else none)
  unfold FileEntry.IsEmpty
  rw [entryAt_head]
  by_cases hz : sec.getD off 0 = 0
  · rw [if_pos (by simpa using hz), if_neg (by simpa using hz)]
  · rw [if_neg (by simpa using hz), if_pos hz]

/-- The source catalog loop computes, sector chain by sector chain, the
concatenation of the claim-side emissions. -/
theorem catalogF_eq_chainF (d : Diskette) :
    ∀ (fuel : Nat) (cur : List Nat),
      d.CatalogF fuel cur =
        (d.catalogChainF fuel cur).map (fun ch => ch.flatMap catalogSpecEmit) := by
  intro fuel
  induction fuel with
  | zero => intro _; rfl
  | succ fuel ih =>
    intro cur
    unfold Diskette.CatalogF Diskette.catalogChainF
    cases hraw : d.rawSector? (cur.getD 0x01 0) (cur.getD 0x02 0) with
    | none => rfl
    | some sec =>
      simp only [specEmit_eq]
      by_cases hz : sec.getD 0x01 0 = 0
      · rw [if_pos (by simpa using hz), if_pos (by simpa using hz)]
        simp
      · rw [if_neg (by simpa using hz), if_neg (by simpa using hz), ih sec]
        cases d.catalogChainF fuel sec with
        | none => rfl
        | some ch => simp

/-- Claim C3: the catalog walk, started from the track/sector in VTOC
bytes 0x01/0x02, emits in on-disk order exactly the 35-byte entries with
nonzero first byte (deleted 0xFF entries included, never-used 0x00 entries
skipped) at the seven fixed offsets of each catalog sector of the chain
followed through bytes 0x01/0x02 until the next track is zero — for every
fuel bound, the source walk equals that description. -/
theorem claim_C3 (d : Diskette) (fuel : Nat) :
    d.Catalog? fuel =
      (d.catalogChain? fuel).map (fun ch => ch.flatMap catalogSpecEmit) := by
  unfold Diskette.Catalog? Diskette.catalogChain?
  cases d.vtocSector? with
  | none => rfl
  | some v =>
    simp only [Option.bind_eq_bind, Option.some_bind]
    exact catalogF_eq_chainF d fuel v

/-
  Claim C1 — ReadAll of Binary / Relocatable files.
-/

/-- When the walked sectors supply at least len bytes, the payload loop
writes exactly the first len bytes of their concatenation. -/
theorem payloadLoop_eq_take :
    ∀ (ls : List (List Nat)) (len : Nat), len ≤ ls.flatten.length →
      payloadLoop len ls = ls.flatten.take len := by
  intro ls
  induction ls with
  | nil =>
    intro len h
    simp only [List.flatten_nil, List.length_nil, Nat.le_zero] at h
    subst h
    rfl
  | cons data rest ih =>
    intro len h
    unfold payloadLoop
    rw [List.flatten_cons, List.take_append_eq_append_take]
    by_cases hle : len ≤ data.length
    · rw [if_pos hle, Nat.sub_eq_zero_of_le hle]
      simp
    · rw [if_neg hle]
      have hlen2 : len - data.length ≤ rest.flatten.length := by
        rw [List.flatten_cons, List.length_append] at h
        omega
      rw [ih _ hlen2, List.take_of_length_le (show data.length ≤ len by omega)]

/-- Claim C1: for a Binary or Relocatable entry, when the walk yields at
least one data sector and the walked sectors supply at least len payload
bytes (len being the little-endian word at bytes 2-3 of the first sector),
ReadAll returns the literal first four bytes of the first data sector
followed by exactly len payload bytes taken in walk order from the
remainder of the first sector and the subsequent sectors, for a total
length of 4 + len. -/
theorem claim_C1 (d : Diskette) (f : List Nat) (fuel : Nat)
    (first : List Nat) (rest : List (List Nat))
    (htype : readHeader? (FileEntry.ftype f) = some true)
    (hdata : d.dataSectors? f fuel = some (first :: rest))
    (hfirst : 4 ≤ first.length)
    (hsupply : word16 (first.getD 2 0) (first.getD 3 0) ≤
      (first.drop 4).length + rest.flatten.length) :
    d.ReadAll? f fuel =
      some (first.take 4 ++
        (first.drop 4 ++ rest.flatten).take (word16 (first.getD 2 0) (first.getD 3 0))) ∧
    (first.take 4 ++
        (first.drop 4 ++ rest.flatten).take
          (word16 (first.getD 2 0) (first.getD 3 0))).length =
      4 + word16 (first.getD 2 0) (first.getD 3 0) := by
  constructor
  · unfold Diskette.ReadAll?
    rw [htype, hdata]
    show some (readAllHeaderBranch (first :: rest)) = _
    have hbr : readAllHeaderBranch (first :: rest) =
        first.take 4 ++
          payloadLoop (word16 (first.getD 2 0) (first.getD 3 0)) (first.drop 4 :: rest) := rfl
    rw [hbr, payloadLoop_eq_take (first.drop 4 :: rest) _
      (by rw [List.flatten_cons, List.length_append]; exact hsupply)]
    rw [List.flatten_cons]
  · rw [List.length_append, List.length_take, List.length_take, List.length_append]
    have hd : (first.drop 4).length = first.length - 4 := List.length_drop 4 first
    omega

/-- Claim C1, witness: the theorem applied to the one-sector binary file of
dReadAll (load address 0x0800, payload length 5). -/
theorem claim_C1_witness :
    dReadAll.ReadAll? eReadAll 2 =
      some (wReadAllFirst.take 4 ++
        (wReadAllFirst.drop 4 ++ ([] : List (List Nat)).flatten).take
          (word16 (wReadAllFirst.getD 2 0) (wReadAllFirst.getD 3 0))) ∧
    (wReadAllFirst.take 4 ++
        (wReadAllFirst.drop 4 ++ ([] : List (List Nat)).flatten).take
          (word16 (wReadAllFirst.getD 2 0) (wReadAllFirst.getD 3 0))).length =
      4 + word16 (wReadAllFirst.getD 2 0) (wReadAllFirst.getD 3 0) :=
  claim_C1 dReadAll eReadAll 2 wReadAllFirst []
    (by decide) (by decide) (by decide) (by decide)

end Dos33
